import Mathlib

/-!
Shallow embedding of the freelan CLI configuration subsystem
(src/src/old/cli.cpp: the `cli.cpp` entry point together with the
`configuration_helper.cpp` translation unit it links against).

The embedding models:
 - boost::program_options values, the `variables_map`, the `store` /
   `notify` semantics used by `parse_options` (command-line values are
   stored first and become final; a later `store` of the configuration
   file never overwrites a final value, while default values fill the
   gaps and may later be replaced by real file values);
 - the option schemas declared by `get_fscp_options`,
   `get_security_options`, `get_tap_adapter_options` and
   `get_switch_options`;
 - the converters and loaders of `configuration_helper.cpp`
   (`parse_network_hostname_resolution_protocol`,
   `to_certificate_validation_method`, `to_time_duration`, `load_file`
   and friends, `to_routing_method`);
 - `setup_configuration`, `get_certificate_validation_script`,
   `get_configuration_files`, `parse_options` and `main`.

C++ exceptions are modelled by `Except`: a thrown exception aborts the
computation and the error value carries no configuration (main catches
any exception, prints it and returns EXIT_FAILURE, discarding the
partially mutated configuration object).  Certificate and private-key
handles are opaque to this subsystem; a successfully loaded handle is
modelled by the file name it was loaded from, and the filesystem is an
oracle `String → Bool` telling which paths open successfully.
-/

namespace Freelan

/-- A boost::program_options option value as it sits in a
`variables_map`: a string, a boolean, an unsigned integer, a string
list, or the valueless marker used by flag options such as `help`. -/
inductive Value where
  | str (s : String)
  | bool (b : Bool)
  | nat (n : Nat)
  | strList (l : List String)
  | unit
deriving Repr, DecidableEq

/-- One entry of a `variables_map`: the stored value plus boost's
`defaulted` flag (true when the value came from a schema default). -/
structure VMEntry where
  value : Value
  defaulted : Bool
deriving Repr, DecidableEq

/-- The `po::variables_map`, as an association list from option name to
entry.  Insertion replaces an existing binding in place. -/
abbrev VM := List (String × VMEntry)

def vmLookup : VM → String → Option VMEntry
  | [], _ => none
  | (k, e) :: t, n => if k = n then some e else vmLookup t n

/-- The truth value of `vm.count(name)` in the C++ source. -/
def vmContains (vm : VM) (n : String) : Bool :=
  (vmLookup vm n).isSome

def vmInsert : VM → String → VMEntry → VM
  | [], n, e => [(n, e)]
  | (k, e') :: t, n, e => if k = n then (n, e) :: t else (k, e') :: vmInsert t n e

/-- Whether boost's `store` considers the option final (present with a
non-defaulted value): such options are skipped by later `store` calls. -/
def isFinal (vm : VM) (n : String) : Bool :=
  match vmLookup vm n with
  | some e => !e.defaulted
  | none => false

/-- One option descriptor of an `options_description`: dotted name,
optional default value, and boost's `required()` flag. -/
structure OptDescr where
  name : String
  default : Option Value
  required : Bool
deriving Repr, DecidableEq

/-- First phase of `po::store`: write each parsed (name, value) pair
into the map unless the name is already final; a written value is
final. -/
def storeValues (parsed : List (String × Value)) (vm : VM) : VM :=
  parsed.foldl
    (fun m p => if isFinal m p.1 then m else vmInsert m p.1 ⟨p.2, false⟩) vm

/-- Second phase of `po::store`: for each descriptor with a default
value whose name is absent from the map, insert the default with the
`defaulted` flag set. -/
def storeDefaults (desc : List OptDescr) (vm : VM) : VM :=
  desc.foldl
    (fun m d =>
      match vmLookup m d.name with
      | some _ => m
      | none =>
        match d.default with
        | some v => vmInsert m d.name ⟨v, true⟩
        | none => m) vm

/-- `po::store(parse_*(...), vm)` under the given description. -/
def store (desc : List OptDescr) (parsed : List (String × Value)) (vm : VM) : VM :=
  storeDefaults desc (storeValues parsed vm)

/-- The error taxonomy: each constructor models one C++ exception the
subsystem can throw (`po::required_option`, the converters'
`std::runtime_error`s, `load_file`'s wrapped open failure,
`po::reading_file` for an unreadable explicit configuration file, and
`boost::bad_any_cast` from `variable_value::as<T>()` on an absent or
wrongly typed entry). -/
inductive Err where
  | missingRequiredOption (name : String)
  | invalidEnumValue (value : String)
  | invalidEndpoint (value : String)
  | invalidAddressPrefixLen (value : String)
  | invalidHardwareAddress (value : String)
  | credentialLoadError (path : String)
  | fileUnreadable (path : String)
  | badAnyCast (name : String)
deriving Repr, DecidableEq

/-- `vm[name].as<std::string>()`. -/
def vmGetStr (vm : VM) (n : String) : Except Err String :=
  match vmLookup vm n with
  | some ⟨Value.str s, _⟩ => .ok s
  | _ => .error (.badAnyCast n)

/-- `vm[name].as<bool>()`. -/
def vmGetBool (vm : VM) (n : String) : Except Err Bool :=
  match vmLookup vm n with
  | some ⟨Value.bool b, _⟩ => .ok b
  | _ => .error (.badAnyCast n)

/-- `vm[name].as<unsigned int>()`. -/
def vmGetNat (vm : VM) (n : String) : Except Err Nat :=
  match vmLookup vm n with
  | some ⟨Value.nat m, _⟩ => .ok m
  | _ => .error (.badAnyCast n)

/-- `vm[name].as<std::vector<std::string>>()`. -/
def vmGetStrList (vm : VM) (n : String) : Except Err (List String) :=
  match vmLookup vm n with
  | some ⟨Value.strList l, _⟩ => .ok l
  | _ => .error (.badAnyCast n)

/-- Whether a required option is absent (or merely defaulted), the
condition under which `variables_map::notify` throws
`po::required_option` for it. -/
def requiredAbsent (vm : VM) (d : OptDescr) : Bool :=
  d.required &&
    (match vmLookup vm d.name with
     | none => true
     | some e => e.defaulted)

/-- The required-option check of `po::notify(vm)`: the first required
option that never received a value raises `required_option` naming
it. -/
def notifyRequired (desc : List OptDescr) (vm : VM) : Except Err Unit :=
  match desc.find? (requiredAbsent vm) with
  | some d => .error (.missingRequiredOption d.name)
  | none => .ok ()

/-- The generic options of `parse_options` (`help`, `debug`,
`configuration_file`). -/
def generic_options : List OptDescr :=
  [⟨"help", none, false⟩,
   ⟨"debug", none, false⟩,
   ⟨"configuration_file", none, false⟩]

/-- `get_fscp_options()`. -/
def get_fscp_options : List OptDescr :=
  [⟨"fscp.hostname_resolution_protocol", some (.str "system_default"), false⟩,
   ⟨"fscp.listen_on", some (.str "0.0.0.0:12000"), false⟩,
   ⟨"fscp.hello_timeout", some (.nat 3000), false⟩,
   ⟨"fscp.contact", some (.strList []), false⟩]

/-- `get_security_options()`: the two signature options are
`required()` and have no default; the two encryption options and the
validation script have neither default nor requiredness. -/
def get_security_options : List OptDescr :=
  [⟨"security.signature_certificate_file", none, true⟩,
   ⟨"security.signature_private_key_file", none, true⟩,
   ⟨"security.encryption_certificate_file", none, false⟩,
   ⟨"security.encryption_private_key_file", none, false⟩,
   ⟨"security.certificate_validation_method", some (.str "default"), false⟩,
   ⟨"security.certificate_validation_script", none, false⟩,
   ⟨"security.authority_certificate_file", some (.strList []), false⟩]

/-- `get_tap_adapter_options()`. -/
def get_tap_adapter_options : List OptDescr :=
  [⟨"tap_adapter.enabled", some (.bool true), false⟩,
   ⟨"tap_adapter.ipv4_address_prefix_length", some (.str "9.0.0.1/24"), false⟩,
   ⟨"tap_adapter.ipv6_address_prefix_length", some (.str "fe80::1/10"), false⟩,
   ⟨"tap_adapter.arp_proxy_enabled", some (.bool false), false⟩,
   ⟨"tap_adapter.arp_proxy_fake_ethernet_address", some (.str "00:aa:bb:cc:dd:ee"), false⟩,
   ⟨"tap_adapter.dhcp_proxy_enabled", some (.bool true), false⟩,
   ⟨"tap_adapter.dhcp_server_ipv4_address_prefix_length", some (.str "9.0.0.0/24"), false⟩,
   ⟨"tap_adapter.dhcp_server_ipv6_address_prefix_length", some (.str "fe80::/10"), false⟩]

/-- `get_switch_options()`. -/
def get_switch_options : List OptDescr :=
  [⟨"switch.routing_method", some (.str "switch"), false⟩,
   ⟨"switch.relay_mode_enabled", some (.bool false), false⟩]

/-- The `configuration_options` description of `parse_options`, also
used to re-parse the configuration file. -/
def configuration_options : List OptDescr :=
  get_fscp_options ++ get_security_options ++ get_tap_adapter_options ++
    get_switch_options

/-- The `all_options` description used to parse the command line. -/
def all_options : List OptDescr :=
  generic_options ++ configuration_options

/-- The result type of `parse_network_hostname_resolution_protocol`:
`boost::asio::ip::udp` has exactly the two protocol values `v4()` and
`v6()`; there is no third, system-default value. -/
inductive Protocol where
  | v4
  | v6
deriving Repr, DecidableEq

/-- `fl::security_configuration::certificate_validation_method_type`. -/
inductive CVM where
  | CVM_DEFAULT
  | CVM_NONE
deriving Repr, DecidableEq

/-- `fl::switch_configuration::routing_method_type`. -/
inductive RM where
  | RM_SWITCH
  | RM_HUB
deriving Repr, DecidableEq

/-- `parse_network_hostname_resolution_protocol` from
`configuration_helper.cpp`: note that the `system_default` token
returns `udp::v4()`, the very same value as the `ipv4` token. -/
def parse_network_hostname_resolution_protocol (str : String) : Except Err Protocol :=
  if str = "system_default" then .ok .v4
  else if str = "ipv4" then .ok .v4
  else if str = "ipv6" then .ok .v6
  else .error (.invalidEnumValue str)

/-- `to_certificate_validation_method` from `configuration_helper.cpp`. -/
def to_certificate_validation_method (str : String) : Except Err CVM :=
  if str = "default" then .ok .CVM_DEFAULT
  else if str = "none" then .ok .CVM_NONE
  else .error (.invalidEnumValue str)

/-- `to_time_duration`: a millisecond count mapped directly to a
duration, kept as the number of milliseconds. -/
def to_time_duration (msduration : Nat) : Nat := msduration

/-- `to_routing_method` from `configuration_helper.cpp`. -/
def to_routing_method (str : String) : Except Err RM :=
  if str = "switch" then .ok .RM_SWITCH
  else if str = "hub" then .ok .RM_HUB
  else .error (.invalidEnumValue str)

/-- `load_file`: opening the named file through the filesystem oracle;
an open failure is wrapped into the credential-load error naming the
path.  The returned opaque handle is modelled by the file name. -/
def load_file (fs : String → Bool) (filename : String) : Except Err String :=
  if fs filename then .ok filename else .error (.credentialLoadError filename)

/-- `load_certificate`: `cert_type::from_certificate(load_file(f))`;
the cryptographic parse is outside this subsystem and the handle is
opaque, so the certificate handle is the loaded file's name. -/
def load_certificate (fs : String → Bool) (filename : String) : Except Err String :=
  load_file fs filename

/-- `load_private_key`: `pkey::from_private_key(load_file(f))`. -/
def load_private_key (fs : String → Bool) (filename : String) : Except Err String :=
  load_file fs filename

/-- `load_trusted_certificate`:
`cert_type::from_trusted_certificate(load_file(f))`. -/
def load_trusted_certificate (fs : String → Bool) (filename : String) : Except Err String :=
  load_file fs filename

/-- Split a character list on a separator character. -/
def splitOnChar (sep : Char) : List Char → List (List Char)
  | [] => [[]]
  | c :: cs =>
    match splitOnChar sep cs with
    | [] => if c = sep then [[], []] else [[c]]
    | h :: t => if c = sep then [] :: h :: t else (c :: h) :: t

/-- Read a non-empty all-digit character list as a number. -/
def charsToNat? (cs : List Char) : Option Nat :=
  match cs with
  | [] => none
  | _ =>
    cs.foldl
      (fun acc c =>
        acc.bind (fun n => if c.isDigit then some (n * 10 + (c.toNat - 48)) else none))
      (some 0)

def isHexChar (c : Char) : Bool :=
  c.isDigit || ('a' ≤ c && c ≤ 'f') || ('A' ≤ c && c ≤ 'F')

def hexCharVal (c : Char) : Nat :=
  if c.isDigit then c.toNat - 48
  else if 'a' ≤ c && c ≤ 'f' then c.toNat - 87
  else c.toNat - 55

/-- An `fl::fscp_configuration::ep_type` endpoint. -/
structure Endpoint where
  host : String
  port : Nat
deriving Repr, DecidableEq

/-- An IPv4 address with prefix length
(`fl::tap_adapter_configuration::ipv4_address_prefix_length_type`):
four octets plus the prefix length. -/
structure Ipv4Pfx where
  octets : List Nat
  len : Nat
deriving Repr, DecidableEq

/-- An IPv6 address with prefix length
(`fl::tap_adapter_configuration::ipv6_address_prefix_length_type`):
the textual address plus the prefix length. -/
structure Ipv6Pfx where
  addr : String
  len : Nat
deriving Repr, DecidableEq

/-- Modelled from the spec: the `parse<ep_type>` helper of
`parsers.cpp` is not under src/; per the spec an endpoint string
`host:port` converts to an (address, port) pair and a malformed string
raises `InvalidEndpoint`.  The host may itself contain colons, so the
port is the part after the last colon. -/
def parse_endpoint (s : String) : Except Err Endpoint :=
  match (splitOnChar ':' s.data).reverse with
  | portCs :: hostRev =>
    if hostRev.isEmpty then .error (.invalidEndpoint s)
    else
      match charsToNat? portCs with
      | some p =>
        let host := String.mk (List.intercalate [':'] hostRev.reverse)
        if p < 65536 && host ≠ "" then .ok ⟨host, p⟩
        else .error (.invalidEndpoint s)
      | none => .error (.invalidEndpoint s)
  | [] => .error (.invalidEndpoint s)

/-- Modelled from the spec: the IPv4 address+prefix-length converter of
`parsers.cpp` is not under src/; per the spec an `a.b.c.d/len` token
converts to (network address, prefix length) and a malformed token or
out-of-range prefix raises `InvalidAddressPrefix`. -/
def parse_ipv4_address_prefix_length (s : String) : Except Err Ipv4Pfx :=
  match splitOnChar '/' s.data with
  | [addrCs, lenCs] =>
    match charsToNat? lenCs with
    | some l =>
      if l ≤ 32 then
        let parts := splitOnChar '.' addrCs
        match parts.mapM charsToNat? with
        | some octs =>
          if octs.length = 4 && octs.all (· ≤ 255) then .ok ⟨octs, l⟩
          else .error (.invalidAddressPrefixLen s)
        | none => .error (.invalidAddressPrefixLen s)
      else .error (.invalidAddressPrefixLen s)
    | none => .error (.invalidAddressPrefixLen s)
  | _ => .error (.invalidAddressPrefixLen s)

/-- Modelled from the spec: the IPv6 address+prefix-length converter of
`parsers.cpp` is not under src/; per the spec a malformed token or an
out-of-range prefix raises `InvalidAddressPrefix`. -/
def parse_ipv6_address_prefix_length (s : String) : Except Err Ipv6Pfx :=
  match splitOnChar '/' s.data with
  | [addrCs, lenCs] =>
    match charsToNat? lenCs with
    | some l =>
      if l ≤ 128 && !addrCs.isEmpty && addrCs.all (fun c => isHexChar c || c = ':') then
        .ok ⟨String.mk addrCs, l⟩
      else .error (.invalidAddressPrefixLen s)
    | none => .error (.invalidAddressPrefixLen s)
  | _ => .error (.invalidAddressPrefixLen s)

/-- Modelled from the spec: the `parse_optional<T>` helper of
`parsers.cpp` is not under src/; an empty token yields an absent
optional value, any other token goes through the converter. -/
def parse_optional_ipv4 (s : String) : Except Err (Option Ipv4Pfx) :=
  if s = "" then .ok none
  else (parse_ipv4_address_prefix_length s).map some

/-- Modelled from the spec: `parse_optional` for the IPv6
address+prefix-length type. -/
def parse_optional_ipv6 (s : String) : Except Err (Option Ipv6Pfx) :=
  if s = "" then .ok none
  else (parse_ipv6_address_prefix_length s).map some

/-- Modelled from the spec: the
`parse<ethernet_address_type>` helper of `parsers.cpp` is not under
src/; per the spec a colon-hex sextet converts to a 6-byte value and a
wrong arity or non-hex digit raises `InvalidHardwareAddress`. -/
def parse_ethernet_address (s : String) : Except Err (List Nat) :=
  let groups := splitOnChar ':' s.data
  if groups.length = 6 &&
      groups.all (fun g => g.length = 2 && g.all isHexChar) then
    .ok (groups.map (fun g => g.foldl (fun a c => a * 16 + hexCharVal c) 0))
  else .error (.invalidHardwareAddress s)

/-- The `fscp::identity_store` constructed by `setup_configuration`.
The two encryption members are default-constructed null handles unless
their load ran, which `Option` models. -/
structure IdentityStore where
  signature_certificate : String
  signature_private_key : String
  encryption_certificate : Option String
  encryption_private_key : Option String
deriving Repr, DecidableEq

/-- `fl::fscp_configuration`. -/
structure FscpConfiguration where
  hostname_resolution_protocol : Protocol
  listen_on : Endpoint
  hello_timeout : Nat
  contact_list : List Endpoint
deriving Repr, DecidableEq

/-- `fl::security_configuration`.  The certificate-validation callback
is a bound invocation of an external script; it is modelled by the
script path it was bound with (`none` when the callback was never
set). -/
structure SecurityConfiguration where
  identity : Option IdentityStore
  certificate_validation_method : CVM
  certificate_validation_callback : Option String
  certificate_authority_list : List String
deriving Repr, DecidableEq

/-- `fl::tap_adapter_configuration`. -/
structure TapAdapterConfiguration where
  enabled : Bool
  ipv4_address_prefix_length : Option Ipv4Pfx
  ipv6_address_prefix_length : Option Ipv6Pfx
  arp_proxy_enabled : Bool
  arp_proxy_fake_ethernet_address : List Nat
  dhcp_proxy_enabled : Bool
  dhcp_server_ipv4_address_prefix_length : Option Ipv4Pfx
  dhcp_server_ipv6_address_prefix_length : Option Ipv6Pfx
deriving Repr, DecidableEq

/-- `fl::switch_configuration`. -/
structure SwitchConfiguration where
  routing_method : RM
  relay_mode_enabled : Bool
deriving Repr, DecidableEq

/-- `fl::configuration`. -/
structure Configuration where
  fscp : FscpConfiguration
  security : SecurityConfiguration
  tap_adapter : TapAdapterConfiguration
  switch_ : SwitchConfiguration
deriving Repr, DecidableEq

/-- Sequential conversion of a list, aborting at the first error: the
`BOOST_FOREACH` push-back loops of `setup_configuration`. -/
def mapExcept (f : α → Except Err β) : List α → Except Err (List β)
  | [] => .ok []
  | a :: l => do
    let b ← f a
    let bs ← mapExcept f l
    pure (b :: bs)

/-- The contact-list loop of `setup_configuration`: clear the list and
parse each contact endpoint in order. -/
def parseContactList (l : List String) : Except Err (List Endpoint) :=
  mapExcept parse_endpoint l

/-- The authority-certificate loop of `setup_configuration`: clear the
list and load each trusted certificate in list order. -/
def loadAuthorityList (fs : String → Bool) (l : List String) : Except Err (List String) :=
  mapExcept (load_trusted_certificate fs) l

/-- The encryption-certificate block of `setup_configuration`: the
certificate is loaded exactly when its own option value is present,
regardless of the private-key option. -/
def read_encryption_certificate (fs : String → Bool) (vm : VM) :
    Except Err (Option String) :=
  if vmContains vm "security.encryption_certificate_file" then do
    let p ← vmGetStr vm "security.encryption_certificate_file"
    let cert ← load_certificate fs p
    pure (some cert)
  else pure none

/-- The encryption-private-key block of `setup_configuration`: the key
is loaded exactly when its own option value is present, regardless of
the certificate option. -/
def read_encryption_private_key (fs : String → Bool) (vm : VM) :
    Except Err (Option String) :=
  if vmContains vm "security.encryption_private_key_file" then do
    let p ← vmGetStr vm "security.encryption_private_key_file"
    let key ← load_private_key fs p
    pure (some key)
  else pure none

/-- `setup_configuration(configuration, vm)` from
`configuration_helper.cpp`.  Every conversion and load runs in exact
source order, so the first failing statement determines the error.  The
C++ assigns each converted value into the by-reference configuration as
it goes, but assignments themselves cannot fail and main discards the
object on any exception, so the partial states are unobservable; the
embedding therefore performs the reads/conversions in source order and
builds the aggregate once at the end.  Every aggregate field is
overwritten except `security.certificate_validation_callback`, the one
field this function never assigns.  Both list-valued fields are cleared
before the push-back loops repopulate them, so the new lists replace,
never extend, the old ones. -/
def setup_configuration (fs : String → Bool) (c0 : Configuration) (vm : VM) :
    Except Err Configuration := do
  let s1 ← vmGetStr vm "fscp.hostname_resolution_protocol"
  let hrp ← parse_network_hostname_resolution_protocol s1
  let s2 ← vmGetStr vm "fscp.listen_on"
  let lo ← parse_endpoint s2
  let n3 ← vmGetNat vm "fscp.hello_timeout"
  let contact_list ← vmGetStrList vm "fscp.contact"
  let eps ← parseContactList contact_list
  let p5 ← vmGetStr vm "security.signature_certificate_file"
  let signature_certificate ← load_certificate fs p5
  let p6 ← vmGetStr vm "security.signature_private_key_file"
  let signature_private_key ← load_private_key fs p6
  let encryption_certificate ← read_encryption_certificate fs vm
  let encryption_private_key ← read_encryption_private_key fs vm
  let ident : IdentityStore :=
    ⟨signature_certificate, signature_private_key,
     encryption_certificate, encryption_private_key⟩
  let s7 ← vmGetStr vm "security.certificate_validation_method"
  let cvm ← to_certificate_validation_method s7
  let authority_certificate_file_list ← vmGetStrList vm "security.authority_certificate_file"
  let cas ← loadAuthorityList fs authority_certificate_file_list
  let b1 ← vmGetBool vm "tap_adapter.enabled"
  let s8 ← vmGetStr vm "tap_adapter.ipv4_address_prefix_length"
  let o8 ← parse_optional_ipv4 s8
  let s9 ← vmGetStr vm "tap_adapter.ipv6_address_prefix_length"
  let o9 ← parse_optional_ipv6 s9
  let b2 ← vmGetBool vm "tap_adapter.arp_proxy_enabled"
  let s10 ← vmGetStr vm "tap_adapter.arp_proxy_fake_ethernet_address"
  let eth ← parse_ethernet_address s10
  let b3 ← vmGetBool vm "tap_adapter.dhcp_proxy_enabled"
  let s11 ← vmGetStr vm "tap_adapter.dhcp_server_ipv4_address_prefix_length"
  let o11 ← parse_optional_ipv4 s11
  let s12 ← vmGetStr vm "tap_adapter.dhcp_server_ipv6_address_prefix_length"
  let o12 ← parse_optional_ipv6 s12
  let s13 ← vmGetStr vm "switch.routing_method"
  let rm ← to_routing_method s13
  let b4 ← vmGetBool vm "switch.relay_mode_enabled"
  pure ⟨⟨hrp, lo, to_time_duration n3, eps⟩,
        ⟨some ident, cvm, c0.security.certificate_validation_callback, cas⟩,
        ⟨b1, o8, o9, b2, eth, b3, o11, o12⟩,
        ⟨rm, b4⟩⟩

/-- `get_certificate_validation_script(vm)` from
`configuration_helper.cpp`: an unconditional
`vm["security.certificate_validation_script"].as<std::string>()`.  The
option has neither a default value nor a guard, so an absent entry
raises `bad_any_cast`. -/
def get_certificate_validation_script (vm : VM) : Except Err String :=
  vmGetStr vm "security.certificate_validation_script"

/-- `get_configuration_files()` (non-Windows branch): the per-user path
under the home directory first, then the application path. -/
def get_configuration_files (home app : String) : List String :=
  [home ++ "/.freelan/freelan.cfg", app ++ "/freelan.cfg"]

/-- The inputs of one `parse_options` invocation: the parsed
command-line pairs (tokenization is boost's), the
`FREELAN_CONFIGURATION_FILE` environment value, the filesystem oracle
(which paths open successfully), the parsed content of each
configuration file, and the two directories the discovery paths are
built from. -/
structure CliEnv where
  cli : List (String × Value)
  env : Option String
  fs : String → Bool
  fileParse : String → List (String × Value)
  home : String
  app : String

/-- The outcome `parse_options` hands back to `main`: the boolean
return value (`false` after printing `--help` usage), the
configuration, the debug flag, and whether the
no-configuration-file-found warning block ran. -/
structure ParseOutcome where
  proceed : Bool
  configuration : Configuration
  debug : Bool
  warned : Bool
deriving Repr, DecidableEq

/-- The path-selection block of `parse_options` (cli.cpp lines
118-132): the explicit `configuration_file` option value when the
option is present, else the `FREELAN_CONFIGURATION_FILE` environment
value, else the empty string. -/
def choose_configuration_file (E : CliEnv) (vm : VM) : Except Err String :=
  if vmContains vm "configuration_file" then vmGetStr vm "configuration_file"
  else pure (E.env.getD "")

/-- The configuration-file resolution of `parse_options` (cli.cpp lines
115-177): store the command line, select a path with
`choose_configuration_file`; a non-empty path must open or
`po::reading_file` is thrown, with no fallback; an empty path probes
the discovery paths and parses the first that opens.  The
`configuration_read` flag of the source is declared false and never set
to true, so the warning block runs whenever the discovery branch does;
the returned Bool mirrors that flag's final test. -/
def resolve_and_merge (E : CliEnv) : Except Err (VM × Bool) := do
  let vm := store all_options E.cli []
  let configuration_file ← choose_configuration_file E vm
  if configuration_file ≠ "" then
    if E.fs configuration_file then
      pure (store configuration_options (E.fileParse configuration_file) vm, false)
    else .error (.fileUnreadable configuration_file)
  else
    let configuration_read := false
    let vm :=
      match (get_configuration_files E.home E.app).find? E.fs with
      | some conf => store configuration_options (E.fileParse conf) vm
      | none => vm
    pure (vm, !configuration_read)

/-- The tail of `parse_options` (cli.cpp lines 179-202): `po::notify`,
then the `--help` early return, then `setup_configuration`, then the
unconditional `get_certificate_validation_script` whose non-empty
result binds the certificate-validation callback, then the debug
flag. -/
def parse_options_tail (E : CliEnv) (c0 : Configuration) (vm : VM) (warned : Bool) :
    Except Err ParseOutcome := do
  let _ ← notifyRequired all_options vm
  if vmContains vm "help" then
    pure ⟨false, c0, false, warned⟩
  else do
    let c1 ← setup_configuration E.fs c0 vm
    let certificate_validation_script ← get_certificate_validation_script vm
    let sec2 :=
      { c1.security with certificate_validation_callback := some certificate_validation_script }
    let c2 :=
      if certificate_validation_script ≠ "" then { c1 with security := sec2 }
      else c1
    pure ⟨true, c2, vmContains vm "debug", warned⟩

/-- `parse_options(argc, argv, configuration, debug)` from cli.cpp. -/
def parse_options (E : CliEnv) (c0 : Configuration) : Except Err ParseOutcome := do
  let (vm, warned) ← resolve_and_merge E
  parse_options_tail E c0 vm warned

/-- The default-constructed `fl::configuration` that `main` declares.
The freelan library's own field defaults live outside src/ and every
claim is independent of them; innocuous values stand in. -/
def default_configuration : Configuration :=
  { fscp := ⟨.v4, ⟨"0.0.0.0", 12000⟩, 3000, []⟩,
    security := ⟨none, .CVM_DEFAULT, none, []⟩,
    tap_adapter := ⟨true, none, none, false, [0, 0, 0, 0, 0, 0], true, none, none⟩,
    switch_ := ⟨.RM_SWITCH, false⟩ }

/-- The exit status of `main`: any exception escaping `parse_options`
is caught, printed, and turned into EXIT_FAILURE (1); otherwise the
process ends with EXIT_SUCCESS (0).  The engine run after a successful
parse is outside this subsystem and modelled as completing normally. -/
def main_exit (E : CliEnv) : Nat :=
  match parse_options E default_configuration with
  | .ok _ => 0
  | .error _ => 1

/-- First-occurrence lookup in a parsed (name, value) pair list, the
value a single-occurrence option receives from that parse. -/
def cliLookup (n : String) : List (String × Value) → Option Value
  | [] => none
  | (k, v) :: t => if k = n then some v else cliLookup n t

/-- Test scenario: a filesystem where every path opens. -/
def fs_all : String → Bool := fun _ => true

/-- Test scenario: a raw value set supplying the two signature paths
and the encryption certificate, but no encryption private key. -/
def vm_enc_cert_only : VM :=
  store all_options
    [("security.signature_certificate_file", .str "sig.crt"),
     ("security.signature_private_key_file", .str "sig.key"),
     ("security.encryption_certificate_file", .str "enc.crt")] []

/-- Test scenario: a raw value set supplying the two signature paths
and the encryption private key, but no encryption certificate. -/
def vm_enc_key_only : VM :=
  store all_options
    [("security.signature_certificate_file", .str "sig2.crt"),
     ("security.signature_private_key_file", .str "sig2.key"),
     ("security.encryption_private_key_file", .str "enc2.key")] []

/-- Test scenario: the command line sets `tap_adapter.enabled=false`
and names an explicit configuration file whose content sets
`tap_adapter.enabled=true`. -/
def env_cli_wins : CliEnv :=
  { cli := [("configuration_file", .str "/etc/freelan.cfg"),
            ("tap_adapter.enabled", .bool false),
            ("security.signature_certificate_file", .str "sig.crt"),
            ("security.signature_private_key_file", .str "sig.key"),
            ("security.certificate_validation_script", .str "")],
    env := none,
    fs := fun s => s = "/etc/freelan.cfg" || s = "sig.crt" || s = "sig.key",
    fileParse := fun _ => [("tap_adapter.enabled", .bool true)],
    home := "/home/user", app := "/app" }

/-- Test scenario: no explicit path and no environment variable, both
discovery paths readable with distinguishable contents (the first sets
the relay flag, the second would set hub routing). -/
def env_discovery : CliEnv :=
  { cli := [("security.signature_certificate_file", .str "sig.crt"),
            ("security.signature_private_key_file", .str "sig.key"),
            ("security.certificate_validation_script", .str "")],
    env := none,
    fs := fun s => s = "sig.crt" || s = "sig.key" ||
      s = "/home/user/.freelan/freelan.cfg" || s = "/app/freelan.cfg",
    fileParse := fun p =>
      if p = "/home/user/.freelan/freelan.cfg" then
        [("switch.relay_mode_enabled", .bool true)]
      else [("switch.routing_method", .str "hub")],
    home := "/home/user", app := "/app" }

/-- Test scenario: `--help` alone on the command line, nothing else
anywhere. -/
def env_help_only : CliEnv :=
  { cli := [("help", .unit)], env := none, fs := fun _ => false,
    fileParse := fun _ => [], home := "/home/user", app := "/app" }

/-- Test scenario: a complete, otherwise valid invocation (both
signature files readable) that supplies no
`security.certificate_validation_script`. -/
def env_no_script : CliEnv :=
  { cli := [("security.signature_certificate_file", .str "sig.crt"),
            ("security.signature_private_key_file", .str "sig.key")],
    env := none, fs := fun s => s = "sig.crt" || s = "sig.key",
    fileParse := fun _ => [], home := "/home/user", app := "/app" }

/-- Test scenario: every path opens except the authority certificate
`bad.crt`. -/
def fs_bad_authority : String → Bool := fun s => !(s = "bad.crt")

/-- Test scenario: a raw value set whose authority-certificate list
holds one unreadable path among three valid ones. -/
def vm_authority : VM :=
  store all_options
    [("security.signature_certificate_file", .str "sig.crt"),
     ("security.signature_private_key_file", .str "sig.key"),
     ("security.authority_certificate_file",
      .strList ["a.crt", "b.crt", "bad.crt", "c.crt"])] []

/-- Test scenario: the explicit configuration-file option is supplied
with an empty string; a discovery-path file exists and sets the relay
flag. -/
def env_empty_path : CliEnv :=
  { cli := [("configuration_file", .str ""),
            ("security.signature_certificate_file", .str "sig.crt"),
            ("security.signature_private_key_file", .str "sig.key"),
            ("security.certificate_validation_script", .str "")],
    env := none,
    fs := fun s => s = "sig.crt" || s = "sig.key" ||
      s = "/home/user/.freelan/freelan.cfg",
    fileParse := fun p =>
      if p = "/home/user/.freelan/freelan.cfg" then
        [("switch.relay_mode_enabled", .bool true)]
      else [],
    home := "/home/user", app := "/app" }

/-- Test scenario: an explicit configuration-file path that does not
open. -/
def env_explicit_missing : CliEnv :=
  { cli := [("configuration_file", .str "/missing.cfg")], env := none,
    fs := fun _ => false, fileParse := fun _ => [],
    home := "/home/user", app := "/app" }

/-- Test scenario: no explicit path; the environment variable names a
path that does not open. -/
def env_envvar_missing : CliEnv :=
  { cli := [], env := some "/envmissing.cfg",
    fs := fun _ => false, fileParse := fun _ => [],
    home := "/home/user", app := "/app" }

/-- Test scenario: the command line supplies the signature certificate
but not the signature private key; nothing else anywhere. -/
def env_missing_key : CliEnv :=
  { cli := [("security.signature_certificate_file", .str "sig.crt")],
    env := none, fs := fun _ => false, fileParse := fun _ => [],
    home := "/home/user", app := "/app" }

/-- Test scenario: an entirely empty invocation — no command-line
options, no environment variable, no readable file anywhere — so both
required signature options are missing. -/
def env_no_required : CliEnv :=
  { cli := [], env := none, fs := fun _ => false, fileParse := fun _ => [],
    home := "/home/user", app := "/app" }

/-- Test scenario: a raw value set exercising every list-valued and
optional field of the assembler (contacts, both encryption members,
authority certificates). -/
def vm_full : VM :=
  store all_options
    [("security.signature_certificate_file", .str "sigf.crt"),
     ("security.signature_private_key_file", .str "sigf.key"),
     ("security.encryption_certificate_file", .str "encf.crt"),
     ("security.encryption_private_key_file", .str "encf.key"),
     ("fscp.contact", .strList ["peer1:1000", "peer2:2000"]),
     ("security.authority_certificate_file", .strList ["ca1.crt", "ca2.crt"])] []

/-! Helper lemmas about `Except` and the `store` semantics. -/

theorem bindOk {α β : Type} {e : Except Err α} {f : α → Except Err β} {b : β}
    (h : (e >>= f) = Except.ok b) : ∃ a, e = Except.ok a ∧ f a = Except.ok b := by
  cases e with
  | ok a => exact ⟨a, rfl, h⟩
  | error err => exact Except.noConfusion h

theorem ok_bind {α β : Type} (a : α) (f : α → Except Err β) :
    (Except.ok a >>= f) = f a := rfl

theorem error_bind {α β : Type} (err : Err) (f : α → Except Err β) :
    ((Except.error err : Except Err α) >>= f) = Except.error err := rfl

theorem vmLookup_vmInsert (vm : VM) (n m : String) (e : VMEntry) :
    vmLookup (vmInsert vm n e) m = if m = n then some e else vmLookup vm m := by
  induction vm with
  | nil =>
    by_cases h : m = n
    · subst h; simp [vmInsert, vmLookup]
    · simp [vmInsert, vmLookup, h, Ne.symm h]
  | cons p t ih =>
    obtain ⟨k, e'⟩ := p
    by_cases hk : k = n
    · subst hk
      by_cases h : m = k
      · subst h; simp [vmInsert, vmLookup]
      · simp [vmInsert, vmLookup, h, Ne.symm h]
    · by_cases h : k = m
      · subst h
        simp [vmInsert, vmLookup, hk, Ne.symm hk]
      · simp [vmInsert, vmLookup, hk, h, ih]

theorem storeValues_final {vm : VM} {n : String} {v : Value}
    (hv : vmLookup vm n = some ⟨v, false⟩) (l : List (String × Value)) :
    vmLookup (storeValues l vm) n = some ⟨v, false⟩ := by
  induction l generalizing vm with
  | nil => exact hv
  | cons p t ih =>
    obtain ⟨k, w⟩ := p
    show vmLookup (storeValues t _) n = _
    by_cases hf : isFinal vm k
    · simpa [storeValues, hf] using ih hv
    · have hkn : k ≠ n := by
        intro hh
        subst hh
        simp [isFinal, hv] at hf
      have : vmLookup (vmInsert vm k ⟨w, false⟩) n = some ⟨v, false⟩ := by
        rw [vmLookup_vmInsert]
        simp [Ne.symm hkn, hv]
      simpa [storeValues, hf] using ih this

theorem storeValues_none {vm : VM} {n : String}
    (h : vmLookup vm n = none) (l : List (String × Value)) :
    vmLookup (storeValues l vm) n = (cliLookup n l).map (fun v => ⟨v, false⟩) := by
  induction l generalizing vm with
  | nil => simpa [cliLookup]
  | cons p t ih =>
    obtain ⟨k, w⟩ := p
    by_cases hk : k = n
    · subst hk
      have hf : isFinal vm k = false := by simp [isFinal, h]
      have hins : vmLookup (vmInsert vm k ⟨w, false⟩) k = some ⟨w, false⟩ := by
        rw [vmLookup_vmInsert]; simp
      have := storeValues_final hins t
      simpa [storeValues, hf, cliLookup] using this
    · have hpres : vmLookup (if isFinal vm k then vm else vmInsert vm k ⟨w, false⟩) n = none := by
        by_cases hf : isFinal vm k
        · simpa [hf]
        · rw [if_neg hf, vmLookup_vmInsert]
          simp [Ne.symm hk, h]
      have := ih hpres
      simpa [storeValues, cliLookup, hk] using this

theorem storeDefaults_some {vm : VM} {n : String} {e : VMEntry}
    (h : vmLookup vm n = some e) (ds : List OptDescr) :
    vmLookup (storeDefaults ds vm) n = some e := by
  induction ds generalizing vm with
  | nil => exact h
  | cons d t ih =>
    show vmLookup (storeDefaults t _) n = _
    match hd : vmLookup vm d.name with
    | some e' => simpa [storeDefaults, hd] using ih h
    | none =>
      have hdn : d.name ≠ n := by
        intro hh; rw [hh] at hd; rw [hd] at h; exact Option.noConfusion h
      match hdef : d.default with
      | some v =>
        have : vmLookup (vmInsert vm d.name ⟨v, true⟩) n = some e := by
          rw [vmLookup_vmInsert]
          simp [Ne.symm hdn, h]
        simpa [storeDefaults, hd, hdef] using ih this
      | none => simpa [storeDefaults, hd, hdef] using ih h

theorem storeDefaults_none {vm : VM} {n : String}
    (h : vmLookup vm n = none) (ds : List OptDescr)
    (hd : ∀ d ∈ ds, d.name ≠ n ∨ d.default = none) :
    vmLookup (storeDefaults ds vm) n = none := by
  induction ds generalizing vm with
  | nil => exact h
  | cons d t ih =>
    have hdt : ∀ d' ∈ t, d'.name ≠ n ∨ d'.default = none :=
      fun d' hm => hd d' (List.mem_cons_of_mem _ hm)
    match hl : vmLookup vm d.name with
    | some e' => simpa [storeDefaults, hl] using ih h hdt
    | none =>
      match hdef : d.default with
      | some v =>
        have hdn : d.name ≠ n := by
          rcases hd d (List.mem_cons_self _ _) with hne | hnone
          · exact hne
          · rw [hdef] at hnone; exact Option.noConfusion hnone
        have : vmLookup (vmInsert vm d.name ⟨v, true⟩) n = none := by
          rw [vmLookup_vmInsert]
          simp [Ne.symm hdn, h]
        simpa [storeDefaults, hl, hdef] using ih this hdt
      | none => simpa [storeDefaults, hl, hdef] using ih h hdt

/-- A value the command line supplied is in the map, final, after the
first `store`. -/
theorem store_cli_lookup {cli : List (String × Value)} {n : String} {v : Value}
    (h : cliLookup n cli = some v) (desc : List OptDescr) :
    vmLookup (store desc cli []) n = some ⟨v, false⟩ := by
  have h0 : vmLookup ([] : VM) n = none := rfl
  have h1 := storeValues_none h0 cli
  rw [h] at h1
  exact storeDefaults_some (by simpa using h1) desc

/-- A final entry survives any later `store`. -/
theorem store_final_preserved {vm : VM} {n : String} {v : Value}
    (h : vmLookup vm n = some ⟨v, false⟩) (desc : List OptDescr)
    (l : List (String × Value)) :
    vmLookup (store desc l vm) n = some ⟨v, false⟩ :=
  storeDefaults_some (storeValues_final h l) desc

/-- An option the command line did not supply, whose descriptor has no
default, is absent from the map after the first `store`. -/
theorem store_cli_none {cli : List (String × Value)} {n : String}
    (h : cliLookup n cli = none) (desc : List OptDescr)
    (hd : ∀ d ∈ desc, d.name ≠ n ∨ d.default = none) :
    vmLookup (store desc cli []) n = none := by
  have h0 : vmLookup ([] : VM) n = none := rfl
  have h1 := storeValues_none h0 cli
  rw [h] at h1
  exact storeDefaults_none (by simpa using h1) desc hd

/-- The parsed-values phase of `store` never marks an entry as
defaulted. -/
theorem storeValues_not_defaulted {vm : VM} {n : String} (l : List (String × Value))
    (h0 : ∀ e, vmLookup vm n = some e → e.defaulted = false) :
    ∀ e, vmLookup (storeValues l vm) n = some e → e.defaulted = false := by
  induction l generalizing vm with
  | nil => exact h0
  | cons p t ih =>
    obtain ⟨k, w⟩ := p
    have h0' : ∀ e, vmLookup (if isFinal vm k then vm else vmInsert vm k ⟨w, false⟩) n
        = some e → e.defaulted = false := by
      intro e he
      by_cases hf : isFinal vm k
      · rw [if_pos hf] at he
        exact h0 e he
      · rw [if_neg hf, vmLookup_vmInsert] at he
        by_cases hnk : n = k
        · rw [if_pos hnk] at he
          exact Option.some.inj he ▸ rfl
        · rw [if_neg hnk] at he
          exact h0 e he
    exact ih h0'

/-- The defaults phase of `store` leaves an option whose descriptor has
no default value without a defaulted entry. -/
theorem storeDefaults_not_defaulted {vm : VM} {n : String} (ds : List OptDescr)
    (hd : ∀ d ∈ ds, d.name ≠ n ∨ d.default = none)
    (h0 : ∀ e, vmLookup vm n = some e → e.defaulted = false) :
    ∀ e, vmLookup (storeDefaults ds vm) n = some e → e.defaulted = false := by
  induction ds generalizing vm with
  | nil => exact h0
  | cons d t ih =>
    have hdt : ∀ d' ∈ t, d'.name ≠ n ∨ d'.default = none :=
      fun d' hm => hd d' (List.mem_cons_of_mem _ hm)
    have h0' : ∀ e,
        vmLookup (match vmLookup vm d.name with
          | some _ => vm
          | none =>
            match d.default with
            | some v => vmInsert vm d.name ⟨v, true⟩
            | none => vm) n = some e → e.defaulted = false := by
      intro e he
      cases hl : vmLookup vm d.name with
      | some e' =>
        simp only [hl] at he
        exact h0 e he
      | none =>
        cases hdef : d.default with
        | some v =>
          have hne : d.name ≠ n := by
            rcases hd d (List.mem_cons_self _ _) with hne | hnone
            · exact hne
            · rw [hdef] at hnone
              exact Option.noConfusion hnone
          simp only [hl, hdef] at he
          rw [vmLookup_vmInsert, if_neg (Ne.symm hne)] at he
          exact h0 e he
        | none =>
          simp only [hl, hdef] at he
          exact h0 e he
    exact ih hdt h0'

/-- A `store` under a description that gives the option no default
value never leaves it with a defaulted entry. -/
theorem store_not_defaulted {vm : VM} {n : String} (desc : List OptDescr)
    (l : List (String × Value))
    (hd : ∀ d ∈ desc, d.name ≠ n ∨ d.default = none)
    (h0 : ∀ e, vmLookup vm n = some e → e.defaulted = false) :
    ∀ e, vmLookup (store desc l vm) n = some e → e.defaulted = false :=
  storeDefaults_not_defaulted desc hd (storeValues_not_defaulted l h0)

/-- In the raw value set produced by the configuration-file resolution,
an option whose descriptor carries no default value is never present
with a merely defaulted entry: both stores run under descriptions that
give it none. -/
theorem resolve_ok_not_defaulted (E : CliEnv) (vm : VM) (w : Bool)
    (hres : resolve_and_merge E = .ok (vm, w)) (n : String)
    (hd1 : ∀ d ∈ all_options, d.name ≠ n ∨ d.default = none)
    (hd2 : ∀ d ∈ configuration_options, d.name ≠ n ∨ d.default = none) :
    ∀ e, vmLookup vm n = some e → e.defaulted = false := by
  have hbase : ∀ e, vmLookup (store all_options E.cli []) n = some e →
      e.defaulted = false :=
    store_not_defaulted all_options E.cli hd1 (fun e he => Option.noConfusion he)
  unfold resolve_and_merge at hres
  obtain ⟨cf, hcf, hres2⟩ := bindOk hres
  by_cases hcfe : cf = ""
  · rw [if_neg (by simp [hcfe])] at hres2
    cases hfind : List.find? E.fs (get_configuration_files E.home E.app) with
    | some conf =>
      rw [hfind] at hres2
      have hvm' := congrArg Prod.fst (Except.ok.inj hres2)
      simp only at hvm'
      rw [← hvm']
      exact store_not_defaulted configuration_options _ hd2 hbase
    | none =>
      rw [hfind] at hres2
      have hvm' := congrArg Prod.fst (Except.ok.inj hres2)
      simp only at hvm'
      rw [← hvm']
      exact hbase
  · rw [if_pos hcfe] at hres2
    cases hfs : E.fs cf with
    | true =>
      rw [if_pos hfs] at hres2
      have hvm' := congrArg Prod.fst (Except.ok.inj hres2)
      simp only at hvm'
      rw [← hvm']
      exact store_not_defaulted configuration_options _ hd2 hbase
    | false =>
      rw [if_neg (by simp [hfs])] at hres2
      exact Except.noConfusion hres2

/-! Claim theorems. -/

/-- Claim C1, counterexample: the claim says the encryption
certificate and key are loaded only if both option values are present,
and that when exactly one is supplied no load is attempted for either.
In the scenario supplying only `security.encryption_certificate_file`,
assembly succeeds and the encryption certificate has been loaded (the
identity store carries the loaded handle), while the key option is
indeed absent: the supplied half of the pair is loaded. -/
theorem encryption_cert_loaded_without_key :
    vmContains vm_enc_cert_only "security.encryption_private_key_file" = false ∧
    (setup_configuration fs_all default_configuration vm_enc_cert_only).toOption.map
        (fun c => c.security.identity.map IdentityStore.encryption_certificate)
      = some (some (some "enc.crt")) := ⟨rfl, rfl⟩

/-- Claim C3, divergence of the code from the claim: with no explicit
path and no environment variable, both discovery paths readable, the
first discovery file is the one read (its relay flag shows up in the
aggregate and the second file's hub routing does not), yet the warning
block still runs: the source's `configuration_read` flag is never set
to true, so the warning is emitted even though a discovery-path file
exists. -/
theorem discovery_warning_always_emitted :
    (parse_options env_discovery default_configuration).toOption.map
        (fun o => (o.warned, o.configuration.switch_.relay_mode_enabled,
                   o.configuration.switch_.routing_method))
      = some (true, true, RM.RM_SWITCH) := rfl

/-- Claim C4, divergence of the code from the claim: `--help` with no
other options does not print usage and exit successfully; because
`po::notify` runs before the help check, the missing mandatory
signature options raise `required_option` first and the process exits
with failure. -/
theorem help_blocked_by_required_check :
    parse_options env_help_only default_configuration
        = .error (.missingRequiredOption "security.signature_certificate_file") ∧
    main_exit env_help_only = 1 := ⟨rfl, rfl⟩

/-- Claim C5, counterexample: the converter does not map the three
tokens onto three enum values; the `system_default` token returns the
very same protocol value as the `ipv4` token (there is no distinct
system-default value in the codomain). -/
theorem system_default_token_aliases_ipv4 :
    parse_network_hostname_resolution_protocol "system_default"
        = parse_network_hostname_resolution_protocol "ipv4" ∧
    parse_network_hostname_resolution_protocol "system_default" = .ok .v4 := ⟨rfl, rfl⟩

/-- Claim C5, amended: the hostname-resolution converter maps the
system-default and IPv4 tokens both to the IPv4 protocol value and the
IPv6 token to the IPv6 value — there is no distinct system-default
result — and raises the invalid-enum-value error for every other
string. -/
theorem hostname_resolution_token_mapping :
    parse_network_hostname_resolution_protocol "system_default" = .ok .v4 ∧
    parse_network_hostname_resolution_protocol "ipv4" = .ok .v4 ∧
    parse_network_hostname_resolution_protocol "ipv6" = .ok .v6 ∧
    ∀ s : String, ¬(s = "system_default" ∨ s = "ipv4" ∨ s = "ipv6") →
      parse_network_hostname_resolution_protocol s = .error (.invalidEnumValue s) := by
  refine ⟨rfl, rfl, rfl, ?_⟩
  intro s hs
  push_neg at hs
  obtain ⟨h1, h2, h3⟩ := hs
  simp [parse_network_hostname_resolution_protocol, h1, h2, h3]

/-- Claim C5, witness: the spec's own test token `bogus` raises the
invalid-enum-value error. -/
theorem hostname_resolution_token_mapping_witness :
    parse_network_hostname_resolution_protocol "bogus" = .error (.invalidEnumValue "bogus") :=
  hostname_resolution_token_mapping.2.2.2 "bogus" (by decide)

/-- Claim C6, divergence of the code from the claim: on a complete,
otherwise valid invocation that supplies no validation script,
assembly does not fall back to the validation method's default
behavior; `get_certificate_validation_script` reads the absent,
default-less `security.certificate_validation_script` entry with
`as<std::string>()`, which raises `bad_any_cast`, and the process exits
with failure. -/
theorem missing_validation_script_fails :
    parse_options env_no_script default_configuration
        = .error (.badAnyCast "security.certificate_validation_script") ∧
    main_exit env_no_script = 1 := ⟨rfl, rfl⟩

/-- Inversion helper: a successful `setup_configuration` run gives the
aggregate the tap-adapter enabled flag it read from the raw value
set. -/
theorem setup_ok_enabled {fs : String → Bool} {c0 c1 : Configuration} {vm : VM} {b : Bool}
    (hb : vmGetBool vm "tap_adapter.enabled" = .ok b)
    (h : setup_configuration fs c0 vm = .ok c1) :
    c1.tap_adapter.enabled = b := by
  unfold setup_configuration at h
  obtain ⟨s1, _, h⟩ := bindOk h
  obtain ⟨hrp, _, h⟩ := bindOk h
  obtain ⟨s2, _, h⟩ := bindOk h
  obtain ⟨lo, _, h⟩ := bindOk h
  obtain ⟨n3, _, h⟩ := bindOk h
  obtain ⟨cl, _, h⟩ := bindOk h
  obtain ⟨eps, _, h⟩ := bindOk h
  obtain ⟨p5, _, h⟩ := bindOk h
  obtain ⟨sc, _, h⟩ := bindOk h
  obtain ⟨p6, _, h⟩ := bindOk h
  obtain ⟨sk, _, h⟩ := bindOk h
  obtain ⟨ec, _, h⟩ := bindOk h
  obtain ⟨ek, _, h⟩ := bindOk h
  obtain ⟨s7, _, h⟩ := bindOk h
  obtain ⟨cvmv, _, h⟩ := bindOk h
  obtain ⟨afl, _, h⟩ := bindOk h
  obtain ⟨cas, _, h⟩ := bindOk h
  obtain ⟨b1, hb1, h⟩ := bindOk h
  obtain ⟨s8, _, h⟩ := bindOk h
  obtain ⟨o8, _, h⟩ := bindOk h
  obtain ⟨s9, _, h⟩ := bindOk h
  obtain ⟨o9, _, h⟩ := bindOk h
  obtain ⟨b2, _, h⟩ := bindOk h
  obtain ⟨s10, _, h⟩ := bindOk h
  obtain ⟨eth, _, h⟩ := bindOk h
  obtain ⟨b3, _, h⟩ := bindOk h
  obtain ⟨s11, _, h⟩ := bindOk h
  obtain ⟨o11, _, h⟩ := bindOk h
  obtain ⟨s12, _, h⟩ := bindOk h
  obtain ⟨o12, _, h⟩ := bindOk h
  obtain ⟨s13, _, h⟩ := bindOk h
  obtain ⟨rm, _, h⟩ := bindOk h
  obtain ⟨b4, _, h⟩ := bindOk h
  have hc := Except.ok.inj h
  rw [hb1] at hb
  have hbb := Except.ok.inj hb
  rw [← hc]
  simpa using hbb

/-- Claim C8, counterexample: the claim says any explicitly supplied
configuration-file path must be readable, a failure being fatal with no
fallback to discovery.  Supplying the explicit option with an empty
string refutes this: the empty path opens nothing, yet no
file-unreadable error is raised; resolution falls through to the
discovery branch, reads the per-user discovery file (its relay flag
shows up in the aggregate) and even emits the discovery warning. -/
theorem empty_explicit_path_falls_back :
    cliLookup "configuration_file" env_empty_path.cli = some (.str "") ∧
    (parse_options env_empty_path default_configuration).toOption.map
        (fun o => (o.warned, o.configuration.switch_.relay_mode_enabled))
      = some (true, true) := ⟨rfl, rfl⟩

/-- Claim C9: in the raw value set produced by the final merge of
command line, file and defaults, `po::notify` raises the
missing-required-option error and `main` exits non-zero whenever any
required option resolves to no value: if the signature certificate is
missing the error names it (first conjunct, whatever the key's state);
if the signature private key is missing while the certificate is
present the error names the key (second conjunct); and in general,
whenever any option the schema marks required is missing, parsing fails
with the error naming a required option that is indeed missing (third
conjunct). -/
theorem missing_required_option_fails (E : CliEnv) (vm : VM) (w : Bool)
    (hres : resolve_and_merge E = .ok (vm, w)) :
    (vmLookup vm "security.signature_certificate_file" = none →
      parse_options E default_configuration
          = .error (.missingRequiredOption "security.signature_certificate_file") ∧
      main_exit E = 1) ∧
    (∀ v : Value,
      vmLookup vm "security.signature_certificate_file" = some ⟨v, false⟩ →
      vmLookup vm "security.signature_private_key_file" = none →
      parse_options E default_configuration
          = .error (.missingRequiredOption "security.signature_private_key_file") ∧
      main_exit E = 1) ∧
    (∀ d ∈ all_options, d.required = true → vmLookup vm d.name = none →
      ∃ d' : OptDescr, d' ∈ all_options ∧ d'.required = true ∧
        vmLookup vm d'.name = none ∧
        parse_options E default_configuration
          = .error (.missingRequiredOption d'.name) ∧
        main_exit E = 1) := by
  have hA : vmLookup vm "security.signature_certificate_file" = none →
      parse_options E default_configuration
          = .error (.missingRequiredOption "security.signature_certificate_file") ∧
      main_exit E = 1 := by
    intro hcert
    have hnot : notifyRequired all_options vm
        = .error (.missingRequiredOption "security.signature_certificate_file") := by
      simp [notifyRequired, all_options, generic_options, configuration_options,
            get_fscp_options, get_security_options, get_tap_adapter_options,
            get_switch_options, List.find?, requiredAbsent, hcert]
    have hpo : parse_options E default_configuration
        = .error (.missingRequiredOption "security.signature_certificate_file") := by
      simp only [parse_options, hres, ok_bind]
      simp only [parse_options_tail, hnot, error_bind]
    refine ⟨hpo, ?_⟩
    unfold main_exit
    rw [hpo]
  have hB : ∀ v : Value,
      vmLookup vm "security.signature_certificate_file" = some ⟨v, false⟩ →
      vmLookup vm "security.signature_private_key_file" = none →
      parse_options E default_configuration
          = .error (.missingRequiredOption "security.signature_private_key_file") ∧
      main_exit E = 1 := by
    intro v hcert hkey
    have hnot : notifyRequired all_options vm
        = .error (.missingRequiredOption "security.signature_private_key_file") := by
      simp [notifyRequired, all_options, generic_options, configuration_options,
            get_fscp_options, get_security_options, get_tap_adapter_options,
            get_switch_options, List.find?, requiredAbsent, hcert, hkey]
    have hpo : parse_options E default_configuration
        = .error (.missingRequiredOption "security.signature_private_key_file") := by
      simp only [parse_options, hres, ok_bind]
      simp only [parse_options_tail, hnot, error_bind]
    refine ⟨hpo, ?_⟩
    unfold main_exit
    rw [hpo]
  refine ⟨hA, hB, ?_⟩
  intro d hd hdreq hdmiss
  cases hcert : vmLookup vm "security.signature_certificate_file" with
  | none =>
    obtain ⟨hpo, hme⟩ := hA hcert
    exact ⟨⟨"security.signature_certificate_file", none, true⟩, by decide, rfl,
           hcert, hpo, hme⟩
  | some e =>
    have hdb : e.defaulted = false :=
      resolve_ok_not_defaulted E vm w hres "security.signature_certificate_file"
        (by decide) (by decide) e hcert
    obtain ⟨v, db⟩ := e
    have hdb' : db = false := hdb
    subst hdb'
    have hnames : ∀ d' ∈ all_options, d'.required = true →
        (d'.name = "security.signature_certificate_file" ∨
         d'.name = "security.signature_private_key_file") := by decide
    rcases hnames d hd hdreq with hn | hn
    · rw [hn, hcert] at hdmiss
      exact Option.noConfusion hdmiss
    · have hkey : vmLookup vm "security.signature_private_key_file" = none := by
        rw [← hn]
        exact hdmiss
      obtain ⟨hpo, hme⟩ := hB v hcert hkey
      exact ⟨⟨"security.signature_private_key_file", none, true⟩, by decide, rfl,
             hkey, hpo, hme⟩

/-- Claim C9, witness: the scenario supplying only the signature
certificate fails naming the signature private key, and the empty
scenario missing both required options fails naming the signature
certificate; both exit 1. -/
theorem missing_required_option_fails_witness :
    parse_options env_missing_key default_configuration
        = .error (.missingRequiredOption "security.signature_private_key_file") ∧
    main_exit env_missing_key = 1 ∧
    parse_options env_no_required default_configuration
        = .error (.missingRequiredOption "security.signature_certificate_file") ∧
    main_exit env_no_required = 1 := by
  obtain ⟨h1, h2⟩ := (missing_required_option_fails env_missing_key
      (store all_options env_missing_key.cli []) true rfl).2.1 (.str "sig.crt") rfl rfl
  obtain ⟨h3, h4⟩ := (missing_required_option_fails env_no_required
      (store all_options env_no_required.cli []) true rfl).1 rfl
  exact ⟨h1, h2, h3, h4⟩

/-- Claim C2: a value the command line set is final, so the later
`store` of the configuration file cannot overwrite it (first conjunct,
at the raw-value-set level for every option name); consequently a run
whose command line carries `tap_adapter.enabled=false` can never
produce an aggregate with the flag true, whatever any configuration
file says (second conjunct). -/
theorem cli_value_precedence :
    (∀ (cli fileVals : List (String × Value)) (n : String) (v : Value),
        cliLookup n cli = some v →
        vmLookup (store configuration_options fileVals (store all_options cli [])) n
          = some ⟨v, false⟩) ∧
    (∀ (E : CliEnv) (c0 : Configuration),
        cliLookup "tap_adapter.enabled" E.cli = some (.bool false) →
        (parse_options E c0).toOption.map
            (fun o => (o.proceed, o.configuration.tap_adapter.enabled))
          ≠ some (true, true)) := by
  constructor
  · intro cli fileVals n v h
    exact store_final_preserved (store_cli_lookup h all_options) configuration_options fileVals
  · intro E c0 hcli hcontra
    cases hp : parse_options E c0 with
    | error e => rw [hp] at hcontra; simp [Except.toOption] at hcontra
    | ok out =>
      rw [hp] at hcontra
      simp only [Except.toOption, Option.map_some] at hcontra
      have hout : out.proceed = true ∧ out.configuration.tap_adapter.enabled = true := by
        have := Option.some.inj hcontra
        exact ⟨congrArg Prod.fst this, congrArg Prod.snd this⟩
      have hvm0 := store_cli_lookup hcli all_options
      unfold parse_options at hp
      obtain ⟨⟨vm, w⟩, hres, htail⟩ := bindOk hp
      have hvm : vmLookup vm "tap_adapter.enabled" = some ⟨.bool false, false⟩ := by
        unfold resolve_and_merge at hres
        obtain ⟨cf, hcf, hres2⟩ := bindOk hres
        by_cases hcfe : cf = ""
        · rw [if_neg (by simp [hcfe])] at hres2
          cases hfind : List.find? E.fs (get_configuration_files E.home E.app) with
          | some conf =>
            rw [hfind] at hres2
            have hvm' := congrArg Prod.fst (Except.ok.inj hres2)
            simp only at hvm'
            rw [← hvm']
            exact store_final_preserved hvm0 _ _
          | none =>
            rw [hfind] at hres2
            have hvm' := congrArg Prod.fst (Except.ok.inj hres2)
            simp only at hvm'
            rw [← hvm']
            exact hvm0
        · rw [if_pos hcfe] at hres2
          cases hfs : E.fs cf with
          | true =>
            rw [if_pos hfs] at hres2
            have hvm' := congrArg Prod.fst (Except.ok.inj hres2)
            simp only at hvm'
            rw [← hvm']
            exact store_final_preserved hvm0 _ _
          | false =>
            rw [if_neg (by simp [hfs])] at hres2
            exact Except.noConfusion hres2
      unfold parse_options_tail at htail
      obtain ⟨u, hnot, htail2⟩ := bindOk htail
      cases hhelp : vmContains vm "help" with
      | true =>
        rw [hhelp] at htail2
        simp only [if_true] at htail2
        have := Except.ok.inj htail2
        rw [← this] at hout
        simp at hout
      | false =>
        rw [hhelp] at htail2
        simp only [if_false, Bool.false_eq_true] at htail2
        obtain ⟨c1, hsetup, ht3⟩ := bindOk htail2
        obtain ⟨scr, hscr, ht4⟩ := bindOk ht3
        have hb : vmGetBool vm "tap_adapter.enabled" = .ok false := by
          simp [vmGetBool, hvm]
        have hen := setup_ok_enabled hb hsetup
        have hoc := Except.ok.inj ht4
        rw [← hoc] at hout
        by_cases hse : scr = "" <;> simp [hse, hen] at hout

/-- Claim C2, witness: with `tap_adapter.enabled=false` on the command
line and an explicit configuration file containing
`tap_adapter.enabled=true`, the merged raw value set holds the
command-line value false as a final entry, and the run cannot yield an
aggregate with the flag true (it in fact yields false). -/
theorem cli_value_precedence_witness :
    vmLookup (store configuration_options
        (env_cli_wins.fileParse "/etc/freelan.cfg")
        (store all_options env_cli_wins.cli [])) "tap_adapter.enabled"
      = some ⟨.bool false, false⟩ ∧
    (parse_options env_cli_wins default_configuration).toOption.map
        (fun o => (o.proceed, o.configuration.tap_adapter.enabled))
      ≠ some (true, true) ∧
    (parse_options env_cli_wins default_configuration).toOption.map
        (fun o => (o.proceed, o.configuration.tap_adapter.enabled))
      = some (true, false) :=
  ⟨cli_value_precedence.1 env_cli_wins.cli
      (env_cli_wins.fileParse "/etc/freelan.cfg") "tap_adapter.enabled"
      (.bool false) rfl,
   cli_value_precedence.2 env_cli_wins default_configuration rfl,
   rfl⟩

/-- Claim C1, amended: each member of the encryption pair is handled
independently — a successful assembly loads the encryption certificate
exactly when its own option value is present and the encryption private
key exactly when its own option value is present; supplying exactly one
of the pair is accepted without error, the supplied member being loaded
and the other left absent. -/
theorem encryption_pair_loaded_independently (fs : String → Bool)
    (c0 : Configuration) (vm : VM)
    (h : (setup_configuration fs c0 vm).toOption.isSome = true) :
    (setup_configuration fs c0 vm).toOption.bind
        (fun c => c.security.identity.map
          (fun id => (id.encryption_certificate.isSome, id.encryption_private_key.isSome)))
      = some (vmContains vm "security.encryption_certificate_file",
              vmContains vm "security.encryption_private_key_file") := by
  cases hs : setup_configuration fs c0 vm with
  | error e => rw [hs] at h; simp [Except.toOption] at h
  | ok c1 =>
    unfold setup_configuration at hs
    obtain ⟨s1, _, hs⟩ := bindOk hs
    obtain ⟨hrp, _, hs⟩ := bindOk hs
    obtain ⟨s2, _, hs⟩ := bindOk hs
    obtain ⟨lo, _, hs⟩ := bindOk hs
    obtain ⟨n3, _, hs⟩ := bindOk hs
    obtain ⟨cl, _, hs⟩ := bindOk hs
    obtain ⟨eps, _, hs⟩ := bindOk hs
    obtain ⟨p5, _, hs⟩ := bindOk hs
    obtain ⟨sc, _, hs⟩ := bindOk hs
    obtain ⟨p6, _, hs⟩ := bindOk hs
    obtain ⟨sk, _, hs⟩ := bindOk hs
    obtain ⟨ec, hec, hs⟩ := bindOk hs
    obtain ⟨ek, hek, hs⟩ := bindOk hs
    obtain ⟨s7, _, hs⟩ := bindOk hs
    obtain ⟨cvmv, _, hs⟩ := bindOk hs
    obtain ⟨afl, _, hs⟩ := bindOk hs
    obtain ⟨cas, _, hs⟩ := bindOk hs
    obtain ⟨b1, _, hs⟩ := bindOk hs
    obtain ⟨s8, _, hs⟩ := bindOk hs
    obtain ⟨o8, _, hs⟩ := bindOk hs
    obtain ⟨s9, _, hs⟩ := bindOk hs
    obtain ⟨o9, _, hs⟩ := bindOk hs
    obtain ⟨b2, _, hs⟩ := bindOk hs
    obtain ⟨s10, _, hs⟩ := bindOk hs
    obtain ⟨eth, _, hs⟩ := bindOk hs
    obtain ⟨b3, _, hs⟩ := bindOk hs
    obtain ⟨s11, _, hs⟩ := bindOk hs
    obtain ⟨o11, _, hs⟩ := bindOk hs
    obtain ⟨s12, _, hs⟩ := bindOk hs
    obtain ⟨o12, _, hs⟩ := bindOk hs
    obtain ⟨s13, _, hs⟩ := bindOk hs
    obtain ⟨rm, _, hs⟩ := bindOk hs
    obtain ⟨b4, _, hs⟩ := bindOk hs
    have hc := Except.ok.inj hs
    have hcert : ec.isSome = vmContains vm "security.encryption_certificate_file" := by
      unfold read_encryption_certificate at hec
      cases hcc : vmContains vm "security.encryption_certificate_file" with
      | true =>
        rw [if_pos hcc] at hec
        obtain ⟨p, _, hec⟩ := bindOk hec
        obtain ⟨cert, _, hec⟩ := bindOk hec
        rw [← Except.ok.inj hec]
        rfl
      | false =>
        rw [if_neg (by simp [hcc])] at hec
        rw [← Except.ok.inj hec]
        rfl
    have hkey : ek.isSome = vmContains vm "security.encryption_private_key_file" := by
      unfold read_encryption_private_key at hek
      cases hcc : vmContains vm "security.encryption_private_key_file" with
      | true =>
        rw [if_pos hcc] at hek
        obtain ⟨p, _, hek⟩ := bindOk hek
        obtain ⟨key, _, hek⟩ := bindOk hek
        rw [← Except.ok.inj hek]
        rfl
      | false =>
        rw [if_neg (by simp [hcc])] at hek
        rw [← Except.ok.inj hek]
        rfl
    simp only [Except.toOption, Option.bind]
    rw [← hc, ← hcert, ← hkey]
    rfl

/-- Claim C1, witness: with only the encryption private key supplied,
assembly succeeds and the identity holds no encryption certificate but
does hold the loaded encryption key. -/
theorem encryption_pair_loaded_independently_witness :
    (setup_configuration fs_all default_configuration vm_enc_key_only).toOption.bind
        (fun c => c.security.identity.map
          (fun id => (id.encryption_certificate.isSome, id.encryption_private_key.isSome)))
      = some (false, true) :=
  (encryption_pair_loaded_independently fs_all default_configuration
      vm_enc_key_only rfl).trans rfl

/-- Loading a list of trusted certificates through a filesystem where
every listed path opens succeeds and keeps the list order. -/
theorem loadAuthorityList_all_ok (fs : String → Bool) :
    ∀ files : List String, (∀ f ∈ files, fs f = true) →
      loadAuthorityList fs files = .ok files := by
  intro files
  induction files with
  | nil => intro _; rfl
  | cons g gs ih =>
    intro hall
    have hg := hall g (List.mem_cons_self _ _)
    have hgs := ih fun f hf => hall f (List.mem_cons_of_mem _ hf)
    have hfg : load_trusted_certificate fs g = Except.ok g := by
      simp [load_trusted_certificate, load_file, hg]
    unfold loadAuthorityList at hgs ⊢
    simp only [mapExcept, hfg, ok_bind, hgs]
    rfl

/-- Loading a list of trusted certificates aborts at the first path
that does not open, with the credential error naming that path. -/
theorem loadAuthorityList_first_error (fs : String → Bool) (bad : String)
    (rest : List String) (hbad : fs bad = false) :
    ∀ good : List String, (∀ f ∈ good, fs f = true) →
      loadAuthorityList fs (good ++ bad :: rest) = .error (.credentialLoadError bad) := by
  intro good
  induction good with
  | nil =>
    intro _
    simp [loadAuthorityList, mapExcept, load_trusted_certificate, load_file, hbad,
          error_bind]
  | cons g gs ih =>
    intro hall
    have hg := hall g (List.mem_cons_self _ _)
    have hgs := ih fun f hf => hall f (List.mem_cons_of_mem _ hf)
    have hfg : load_trusted_certificate fs g = Except.ok g := by
      simp [load_trusted_certificate, load_file, hg]
    show loadAuthorityList fs (g :: (gs ++ bad :: rest))
        = Except.error (.credentialLoadError bad)
    unfold loadAuthorityList at hgs ⊢
    simp only [mapExcept, hfg, ok_bind, hgs, error_bind]

/-- Claim C7: the trusted authority certificates are loaded one by one
in list order (an all-readable list loads to exactly that list, in
order); the first unreadable path aborts the load with the credential
error naming that path; and an assembly whose raw value set carries
such a list never returns an aggregate — the error carries no partial
state. -/
theorem authority_certificates_fail_fast (fs : String → Bool) (good : List String)
    (bad : String) (rest : List String)
    (hgood : ∀ f ∈ good, fs f = true) (hbad : fs bad = false) :
    loadAuthorityList fs (good ++ bad :: rest) = .error (.credentialLoadError bad) ∧
    (∀ files : List String, (∀ f ∈ files, fs f = true) →
      loadAuthorityList fs files = .ok files) ∧
    (∀ (vm : VM) (d : Bool) (c0 c' : Configuration),
      vmLookup vm "security.authority_certificate_file"
        = some ⟨.strList (good ++ bad :: rest), d⟩ →
      setup_configuration fs c0 vm ≠ .ok c') := by
  refine ⟨loadAuthorityList_first_error fs bad rest hbad good hgood,
          loadAuthorityList_all_ok fs, ?_⟩
  intro vm d c0 c' hvm hs
  unfold setup_configuration at hs
  obtain ⟨s1, _, hs⟩ := bindOk hs
  obtain ⟨hrp, _, hs⟩ := bindOk hs
  obtain ⟨s2, _, hs⟩ := bindOk hs
  obtain ⟨lo, _, hs⟩ := bindOk hs
  obtain ⟨n3, _, hs⟩ := bindOk hs
  obtain ⟨cl, _, hs⟩ := bindOk hs
  obtain ⟨eps, _, hs⟩ := bindOk hs
  obtain ⟨p5, _, hs⟩ := bindOk hs
  obtain ⟨sc, _, hs⟩ := bindOk hs
  obtain ⟨p6, _, hs⟩ := bindOk hs
  obtain ⟨sk, _, hs⟩ := bindOk hs
  obtain ⟨ec, _, hs⟩ := bindOk hs
  obtain ⟨ek, _, hs⟩ := bindOk hs
  obtain ⟨s7, _, hs⟩ := bindOk hs
  obtain ⟨cvmv, _, hs⟩ := bindOk hs
  obtain ⟨afl, hafl, hs⟩ := bindOk hs
  obtain ⟨cas, hcas, hs⟩ := bindOk hs
  have : afl = good ++ bad :: rest := by
    simp [vmGetStrList, hvm] at hafl
    exact hafl.symm
  rw [this, loadAuthorityList_first_error fs bad rest hbad good hgood] at hcas
  exact Except.noConfusion hcas

/-- Claim C7, witness: with `bad.crt` unreadable among three readable
paths, the load aborts naming `bad.crt` and assembly over such a raw
value set cannot return an aggregate. -/
theorem authority_certificates_fail_fast_witness :
    loadAuthorityList fs_bad_authority ["a.crt", "b.crt", "bad.crt", "c.crt"]
        = .error (.credentialLoadError "bad.crt") ∧
    setup_configuration fs_bad_authority default_configuration vm_authority
        ≠ .ok default_configuration := by
  have h := authority_certificates_fail_fast fs_bad_authority ["a.crt", "b.crt"]
      "bad.crt" ["c.crt"] (by decide) (by decide)
  exact ⟨h.1, h.2.2 vm_authority false default_configuration default_configuration rfl⟩

/-- Claim C8, amended: a NON-EMPTY explicitly supplied
configuration-file path (and likewise a non-empty environment-supplied
path consulted only when the explicit option is absent) must open;
failure is fatal with the file-unreadable error and no fallback.  An
explicitly supplied empty value is treated as no path at all and falls
through to discovery.  The environment variable is irrelevant whenever
the explicit option is present: the run's outcome is the same for any
environment value. -/
theorem nonempty_explicit_path_fatal :
    (∀ (E : CliEnv) (s : String),
        cliLookup "configuration_file" E.cli = some (.str s) → s ≠ "" →
        E.fs s = false →
        parse_options E default_configuration = .error (.fileUnreadable s)) ∧
    (∀ (E : CliEnv) (s : String),
        cliLookup "configuration_file" E.cli = none → E.env = some s → s ≠ "" →
        E.fs s = false →
        parse_options E default_configuration = .error (.fileUnreadable s)) ∧
    (∀ (E : CliEnv) (e' : Option String) (s : String),
        cliLookup "configuration_file" E.cli = some (.str s) →
        parse_options E default_configuration
          = parse_options { E with env := e' } default_configuration) := by
  refine ⟨?_, ?_, ?_⟩
  · intro E s hcli hne hfs
    have hvm := store_cli_lookup hcli all_options
    have hcf : choose_configuration_file E (store all_options E.cli []) = .ok s := by
      unfold choose_configuration_file
      rw [if_pos (show vmContains (store all_options E.cli []) "configuration_file" = true
            by simp [vmContains, hvm])]
      simp [vmGetStr, hvm]
    simp only [parse_options, resolve_and_merge, hcf, ok_bind]
    rw [if_pos hne, if_neg (by simp [hfs])]
    rfl
  · intro E s hcli henv hne hfs
    have hnone : vmLookup (store all_options E.cli []) "configuration_file" = none :=
      store_cli_none hcli all_options (by decide)
    have hcf : choose_configuration_file E (store all_options E.cli []) = .ok s := by
      unfold choose_configuration_file
      rw [if_neg (by simp [vmContains, hnone])]
      rw [henv]
      rfl
    simp only [parse_options, resolve_and_merge, hcf, ok_bind]
    rw [if_pos hne, if_neg (by simp [hfs])]
    rfl
  · intro E e' s hcli
    obtain ⟨cli, env0, fs0, fp0, h0, a0⟩ := E
    have hvm := store_cli_lookup hcli all_options
    have hc : vmContains (store all_options cli []) "configuration_file" = true := by
      simp [vmContains]
      rw [show vmLookup (store all_options cli []) "configuration_file"
            = some ⟨.str s, false⟩ from hvm]
      rfl
    have hres : resolve_and_merge ⟨cli, e', fs0, fp0, h0, a0⟩
        = resolve_and_merge ⟨cli, env0, fs0, fp0, h0, a0⟩ := by
      simp only [resolve_and_merge, choose_configuration_file]
      rw [if_pos hc, if_pos hc]
    have htail : parse_options_tail (CliEnv.mk cli e' fs0 fp0 h0 a0)
        = parse_options_tail (CliEnv.mk cli env0 fs0 fp0 h0 a0) := rfl
    simp only [parse_options]
    rw [hres, htail]

/-- Claim C8, witness: an explicit unreadable path is fatal naming that
path; with no explicit option an unreadable environment path is fatal
naming it; and with an explicit option present, changing the
environment value changes nothing. -/
theorem nonempty_explicit_path_fatal_witness :
    parse_options env_explicit_missing default_configuration
        = .error (.fileUnreadable "/missing.cfg") ∧
    parse_options env_envvar_missing default_configuration
        = .error (.fileUnreadable "/envmissing.cfg") ∧
    parse_options env_explicit_missing default_configuration
      = parse_options { env_explicit_missing with env := some "/x.cfg" }
          default_configuration :=
  ⟨nonempty_explicit_path_fatal.1 env_explicit_missing "/missing.cfg" rfl
      (by decide) rfl,
   nonempty_explicit_path_fatal.2.1 env_envvar_missing "/envmissing.cfg" rfl rfl
      (by decide) rfl,
   nonempty_explicit_path_fatal.2.2 env_explicit_missing (some "/x.cfg")
      "/missing.cfg" rfl⟩

/-- Claim C10: the assembler overwrites the list-valued fields (the
contact list and the certificate-authority list are cleared and rebuilt
from the raw value set alone), and every other field it writes is
likewise computed from the raw value set, so feeding a successful run's
aggregate back through the assembler reproduces that aggregate exactly:
running assembly twice equals running it once, with no duplicated list
entries. -/
theorem setup_configuration_idempotent (fs : String → Bool) (vm : VM)
    (c : Configuration)
    (_h : (setup_configuration fs c vm).toOption.isSome = true) :
    (setup_configuration fs c vm).bind (fun c' => setup_configuration fs c' vm)
      = setup_configuration fs c vm := by
  cases hs : setup_configuration fs c vm with
  | error e => rfl
  | ok c1 =>
    show setup_configuration fs c1 vm = Except.ok c1
    unfold setup_configuration at hs
    obtain ⟨s1, h1, hs⟩ := bindOk hs
    obtain ⟨hrp, h2, hs⟩ := bindOk hs
    obtain ⟨s2, h3, hs⟩ := bindOk hs
    obtain ⟨lo, h4, hs⟩ := bindOk hs
    obtain ⟨n3, h5, hs⟩ := bindOk hs
    obtain ⟨cl, h6, hs⟩ := bindOk hs
    obtain ⟨eps, h7, hs⟩ := bindOk hs
    obtain ⟨p5, h8, hs⟩ := bindOk hs
    obtain ⟨sc, h9, hs⟩ := bindOk hs
    obtain ⟨p6, h10, hs⟩ := bindOk hs
    obtain ⟨sk, h11, hs⟩ := bindOk hs
    obtain ⟨ec, h12, hs⟩ := bindOk hs
    obtain ⟨ek, h13, hs⟩ := bindOk hs
    obtain ⟨s7, h14, hs⟩ := bindOk hs
    obtain ⟨cvmv, h15, hs⟩ := bindOk hs
    obtain ⟨afl, h16, hs⟩ := bindOk hs
    obtain ⟨cas, h17, hs⟩ := bindOk hs
    obtain ⟨b1, h18, hs⟩ := bindOk hs
    obtain ⟨s8, h19, hs⟩ := bindOk hs
    obtain ⟨o8, h20, hs⟩ := bindOk hs
    obtain ⟨s9, h21, hs⟩ := bindOk hs
    obtain ⟨o9, h22, hs⟩ := bindOk hs
    obtain ⟨b2, h23, hs⟩ := bindOk hs
    obtain ⟨s10, h24, hs⟩ := bindOk hs
    obtain ⟨eth, h25, hs⟩ := bindOk hs
    obtain ⟨b3, h26, hs⟩ := bindOk hs
    obtain ⟨s11, h27, hs⟩ := bindOk hs
    obtain ⟨o11, h28, hs⟩ := bindOk hs
    obtain ⟨s12, h29, hs⟩ := bindOk hs
    obtain ⟨o12, h30, hs⟩ := bindOk hs
    obtain ⟨s13, h31, hs⟩ := bindOk hs
    obtain ⟨rm, h32, hs⟩ := bindOk hs
    obtain ⟨b4, h33, hs⟩ := bindOk hs
    have hc := Except.ok.inj hs
    subst hc
    simp only [setup_configuration, h1, h2, h3, h4, h5, h6, h7, h8, h9, h10, h11,
               h12, h13, h14, h15, h16, h17, h18, h19, h20, h21, h22, h23, h24,
               h25, h26, h27, h28, h29, h30, h31, h32, h33, ok_bind]
    rfl

/-- Claim C10, witness: over a raw value set with two contacts and two
authority certificates, assembling the assembled aggregate again leaves
the result (in particular both lists) exactly as after one run. -/
theorem setup_configuration_idempotent_witness :
    (setup_configuration fs_all default_configuration vm_full).bind
        (fun c' => setup_configuration fs_all c' vm_full)
      = setup_configuration fs_all default_configuration vm_full :=
  setup_configuration_idempotent fs_all vm_full default_configuration rfl

end Freelan
